import Mathlib

/-!
Shallow embedding of the pngme chunk codec (src/chunk.rs, src/chunk_type.rs,
src/args.rs).  Bytes are modelled as `Nat` values below 256, Rust strings as
lists of Unicode scalar values (`List Nat`), u32 arithmetic as `Nat` with
explicit `% 2^32` where the source casts or wraps.  Fallible Rust functions
return `Except`; functions whose source can panic (`unwrap`, out-of-bounds
slicing) return an `Outcome` with an explicit `panic` case.
-/

deriving instance DecidableEq for Except

namespace Pngme

/-- Model of `u8::is_ascii_uppercase`. -/
def isAsciiUppercase (b : Nat) : Bool := 65 ≤ b && b ≤ 90

/-- Model of `u8::is_ascii_lowercase`. -/
def isAsciiLowercase (b : Nat) : Bool := 97 ≤ b && b ≤ 122

/-- ASCII alphabetic test on a byte (used to state tag-validity side
conditions). -/
def isAsciiAlpha (b : Nat) : Bool :=
  (65 ≤ b && b ≤ 90) || (97 ≤ b && b ≤ 122)

/-- Model of Rust `char::is_alphabetic` (the Unicode `Alphabetic` property),
tabulated exactly for code points below 0x100 (ASCII letters plus the
Latin-1 letters 0xAA, 0xB5, 0xBA, 0xC0-0xD6, 0xD8-0xF6, 0xF8-0xFF).  The
theorems that depend on this predicate restrict strings to code points
below 0x100, where this table matches the Unicode data. -/
def rustIsAlphabetic (c : Nat) : Bool :=
  (65 ≤ c && c ≤ 90) || (97 ≤ c && c ≤ 122) ||
  (c == 0xAA) || (c == 0xB5) || (c == 0xBA) ||
  (0xC0 ≤ c && c ≤ 0xFF && c != 0xD7 && c != 0xF7)

/-- Number of bytes of the UTF-8 encoding of one scalar value
(Rust `char::len_utf8`). -/
def charUtf8Len (c : Nat) : Nat :=
  if c < 0x80 then 1
  else if c < 0x800 then 2
  else if c < 0x10000 then 3
  else 4

/-- UTF-8 encoding of one scalar value. -/
def charUtf8 (c : Nat) : List Nat :=
  if c < 0x80 then [c]
  else if c < 0x800 then [0xC0 + c / 0x40, 0x80 + c % 0x40]
  else if c < 0x10000 then
    [0xE0 + c / 0x1000, 0x80 + c / 0x40 % 0x40, 0x80 + c % 0x40]
  else
    [0xF0 + c / 0x40000, 0x80 + c / 0x1000 % 0x40,
     0x80 + c / 0x40 % 0x40, 0x80 + c % 0x40]

/-- UTF-8 encoding of a string (Rust `str::as_bytes`). -/
def utf8Encode (s : List Nat) : List Nat := (s.map charUtf8).flatten

/-- Byte length of the UTF-8 encoding of a string (Rust `str::len`). -/
def utf8Length (s : List Nat) : Nat := (s.map charUtf8Len).sum

/-- Continuation-byte test of UTF-8 (0x80-0xBF). -/
def utf8Cont (b : Nat) : Bool := 0x80 ≤ b && b < 0xC0

/-- Lead and continuation tests for a two-byte UTF-8 sequence (lead bytes
0xC2-0xDF; 0xC0/0xC1 would be overlong and are rejected). -/
def utf8Two (b b2 : Nat) : Bool := 0xC2 ≤ b && b < 0xE0 && utf8Cont b2

/-- First-continuation range for a three-byte sequence: 0xE0 forbids
overlong forms (0xA0-0xBF) and 0xED forbids surrogates (0x80-0x9F). -/
def utf8ThreeHead (b b2 : Nat) : Bool :=
  if b = 0xE0 then 0xA0 ≤ b2 && b2 < 0xC0
  else if b = 0xED then 0x80 ≤ b2 && b2 < 0xA0
  else utf8Cont b2

/-- Lead and continuation tests for a three-byte UTF-8 sequence. -/
def utf8Three (b b2 b3 : Nat) : Bool :=
  0xE0 ≤ b && b < 0xF0 && utf8ThreeHead b b2 && utf8Cont b3

/-- First-continuation range for a four-byte sequence: 0xF0 forbids
overlong forms (0x90-0xBF) and 0xF4 caps scalars at 0x10FFFF
(0x80-0x8F). -/
def utf8FourHead (b b2 : Nat) : Bool :=
  if b = 0xF0 then 0x90 ≤ b2 && b2 < 0xC0
  else if b = 0xF4 then 0x80 ≤ b2 && b2 < 0x90
  else utf8Cont b2

/-- Lead and continuation tests for a four-byte UTF-8 sequence (lead
bytes 0xF0-0xF4; 0xF5 and above are rejected). -/
def utf8Four (b b2 b3 b4 : Nat) : Bool :=
  0xF0 ≤ b && b < 0xF5 && utf8FourHead b b2 && utf8Cont b3 && utf8Cont b4

/-- UTF-8 decoding and validation of a byte sequence into scalar values
(Rust `str::from_utf8` composed with `str::chars`): `none` exactly on
byte sequences that are not valid UTF-8 (stray continuation bytes,
overlong forms, surrogates and values above 0x10FFFF are all rejected,
as in the Rust standard library).  A lead byte of a given class whose
continuation bytes fail their tests falls through every later test, so
the sequence is rejected, matching Rust's validator. -/
def utf8Decode : List Nat → Option (List Nat)
  | [] => some []
  | b :: bs =>
    if b < 0x80 then (utf8Decode bs).map (fun r => b :: r)
    else
      match bs with
      | [] => none
      | b2 :: bs2 =>
        if utf8Two b b2 then
          (utf8Decode bs2).map (fun r => ((b - 0xC0) * 0x40 + (b2 - 0x80)) :: r)
        else
          match bs2 with
          | [] => none
          | b3 :: bs3 =>
            if utf8Three b b2 b3 then
              (utf8Decode bs3).map
                (fun r => ((b - 0xE0) * 0x1000 + (b2 - 0x80) * 0x40 + (b3 - 0x80)) :: r)
            else
              match bs3 with
              | [] => none
              | b4 :: bs4 =>
                if utf8Four b b2 b3 b4 then
                  (utf8Decode bs4).map
                    (fun r => ((b - 0xF0) * 0x40000 + (b2 - 0x80) * 0x1000
                                + (b3 - 0x80) * 0x40 + (b4 - 0x80)) :: r)
                else none

/-- One shift-and-conditionally-xor round of the bit-serial CRC32
(reflected polynomial 0xEDB88320, as in the `crc32fast` crate). -/
def crc32Round (c : Nat) : Nat :=
  if c % 2 = 1 then Nat.xor (c / 2) 0xEDB88320 else c / 2

/-- Iterated CRC32 rounds. -/
def crc32Rounds : Nat → Nat → Nat
  | 0, c => c
  | n + 1, c => crc32Rounds n (crc32Round c)

/-- CRC32 state update for one input byte (the byte is a `u8`, hence the
explicit `% 256`). -/
def crc32Byte (c b : Nat) : Nat := crc32Rounds 8 (Nat.xor c (b % 256))

/-- Model of `crc32fast::Hasher::new / update / finalize` on a byte
sequence: the standard CRC-32 (initial value 0xFFFFFFFF, reflected
polynomial 0xEDB88320, final xor 0xFFFFFFFF) used by PNG and zlib. -/
def crc32 (data : List Nat) : Nat :=
  Nat.xor (data.foldl crc32Byte 0xFFFFFFFF) 0xFFFFFFFF

/-- Error kinds raised by the codec, one constructor per `io::Error`
construction site in the source: `invalidLength` for the "invalid length"
rejection of buffers shorter than 12 bytes, `wrongSize` for
`ChunkType::from_str`'s "wrong_size", `notLetters` for its "provided
string is not ASCII/letters", `invalidChunkType` for "invalid chunk type",
`invalidCRC` for "invalid CRC provided", and `invalidChunk` for
`data_as_string`'s "invalid chunk". -/
inductive PngErr where
  | invalidLength
  | wrongSize
  | notLetters
  | invalidChunkType
  | invalidCRC
  | invalidChunk
deriving DecidableEq

/-- Result of running a Rust function that can also panic: `ok`/`err` for
the two `Result` constructors, `panic` when the source aborts (a failed
`unwrap` or an out-of-bounds slice index). -/
inductive Outcome (α : Type) where
  | ok : α → Outcome α
  | err : PngErr → Outcome α
  | panic : Outcome α
deriving DecidableEq

/-- Model of `ChunkType` (src/chunk_type.rs): the `data: [u8; 4]` field is
a list of four byte values. -/
structure ChunkType where
  data : List Nat
deriving DecidableEq

/-- Model of `ChunkType::bytes`. -/
def ChunkType.bytes (c : ChunkType) : List Nat := c.data

/-- Model of `ChunkType::is_reserved_bit_valid`: byte 2 is ASCII
uppercase. -/
def ChunkType.is_reserved_bit_valid (c : ChunkType) : Bool :=
  isAsciiUppercase (c.data.getD 2 0)

/-- Model of `ChunkType::is_valid`: false when the reserved bit is not
valid; otherwise `str::from_utf8(&self.data)` is attempted and the result
is `s.is_ascii()` (every byte below 0x80) on success and false on a UTF-8
error. -/
def ChunkType.is_valid (c : ChunkType) : Bool :=
  if !c.is_reserved_bit_valid then false
  else
    match utf8Decode c.data with
    | some _ => c.data.all (fun b => b < 0x80)
    | none => false

/-- Model of `ChunkType::from_str`: rejects when the string's byte length
(`s.len()`) is not 4, then when some character fails
`char::is_alphabetic`; otherwise stores the string's UTF-8 bytes
(`s.as_bytes().try_into()` cannot fail on a 4-byte string). -/
def ChunkType.from_str (s : List Nat) : Except PngErr ChunkType :=
  if utf8Length s ≠ 4 then .error .wrongSize
  else if !s.all rustIsAlphabetic then .error .notLetters
  else .ok ⟨utf8Encode s⟩

/-- Model of `Chunk` (src/chunk.rs): a tag and a byte payload. -/
structure Chunk where
  chunk_type : ChunkType
  data : List Nat
deriving DecidableEq

/-- Model of `Chunk::length`: `self.data.len().try_into().unwrap()` into
`u32` — `none` models the panic of the failed `unwrap` when the payload
length does not fit in 32 bits. -/
def Chunk.length (c : Chunk) : Option Nat :=
  if c.data.length < 2 ^ 32 then some c.data.length else none

/-- Model of `Chunk::crc`: CRC32 of the tag bytes concatenated with the
payload (the source builds `crc_payload` by extending with
`chunk_type.bytes()` then `data`, and feeds it to one `Hasher`). -/
def Chunk.crc (c : Chunk) : Nat := crc32 (c.chunk_type.data ++ c.data)

/-- Model of `Chunk::data_as_string`: an `InvalidData` error when the tag
is not valid; otherwise `String::from_utf8(...).unwrap()`, which panics
(rather than returning an error) when the payload is not valid UTF-8. -/
def Chunk.data_as_string (c : Chunk) : Outcome (List Nat) :=
  if c.chunk_type.is_valid then
    match utf8Decode c.data with
    | some s => .ok s
    | none => .panic
  else .err .invalidChunk

/-- Big-endian bytes of a `u32` value (`u32::to_be_bytes`). -/
def u32BeBytes (n : Nat) : List Nat :=
  [n / 2 ^ 24 % 256, n / 2 ^ 16 % 256, n / 2 ^ 8 % 256, n % 256]

/-- Big-endian `u32` read from four bytes (`u32::from_be_bytes`). -/
def beU32 (bs : List Nat) : Nat := bs.foldl (fun a b => a * 256 + b) 0

/-- Model of `Chunk::as_bytes`: `(data.len() as u32)` big-endian (the
`as u32` cast wraps, hence `% 2^32`), then the tag bytes, the payload,
and the big-endian CRC. -/
def Chunk.as_bytes (c : Chunk) : List Nat :=
  u32BeBytes (c.data.length % 2 ^ 32) ++ c.chunk_type.data ++ c.data
    ++ u32BeBytes c.crc

/-- Model of `impl TryFrom<&[u8]> for Chunk` (src/chunk.rs lines 63-94).
Steps mirror the source order: reject buffers shorter than 12; decode
`value[4..8]` as UTF-8 (`.unwrap()` panics on invalid UTF-8) and run it
through `ChunkType::from_str` and `is_valid`; read the big-endian length
field; slice the payload `value[8 .. 8+len]` (out-of-bounds panics) and
the stored CRC `value[8+len .. 12+len]` (out-of-bounds panics); reject on
CRC mismatch. -/
def Chunk.try_from (value : List Nat) : Outcome Chunk :=
  if value.length < 12 then .err .invalidLength
  else
    match utf8Decode ((value.drop 4).take 4) with
    | none => .panic
    | some s =>
      match ChunkType.from_str s with
      | .error e => .err e
      | .ok c =>
        if !c.is_valid then .err .invalidChunkType
        else
          let lengthField := beU32 (value.take 4)
          if value.length < 8 + lengthField then .panic
          else
            let chunk : Chunk := ⟨c, (value.drop 8).take lengthField⟩
            if value.length < 12 + lengthField then .panic
            else if chunk.crc ≠ beU32 ((value.drop (8 + lengthField)).take 4) then
              .err .invalidCRC
            else .ok chunk

/-- Model of `ArgErr` (src/args.rs). -/
inductive ArgErr where
  | invalidCommand : String → ArgErr
  | missingArgs : String → ArgErr
deriving DecidableEq

/-- Model of `EncodeArgs`. -/
structure EncodeArgs where
  file : String
  chunk_type : String
  payload : String
deriving DecidableEq

/-- Model of `DecodeArgs`. -/
structure DecodeArgs where
  file : String
  chunk_type : String
deriving DecidableEq

/-- Model of `RemoveArgs`. -/
structure RemoveArgs where
  file : String
  chunk_type : String
deriving DecidableEq

/-- Model of `PngMeArgs`. -/
inductive PngMeArgs where
  | encode : EncodeArgs → PngMeArgs
  | decode : DecodeArgs → PngMeArgs
  | remove : RemoveArgs → PngMeArgs
deriving DecidableEq

/-- Model of `generate_args` (src/args.rs lines 36-69): dispatch on the
command string; for each known command check only that the required
optional arguments are present (`is_none()` tests), wrapping the raw
strings unchanged; any other command yields `InvalidCommand`. -/
def generate_args (command filepath : String) (chunk_type payload : Option String) :
    Except ArgErr PngMeArgs :=
  if command = "encode" then
    match chunk_type with
    | none => .error (.missingArgs "chunk type")
    | some ct =>
      match payload with
      | none => .error (.missingArgs "payload")
      | some p => .ok (.encode ⟨filepath, ct, p⟩)
  else if command = "decode" then
    match chunk_type with
    | none => .error (.missingArgs "chunk type")
    | some ct => .ok (.decode ⟨filepath, ct⟩)
  else if command = "remove" then
    match chunk_type with
    | none => .error (.missingArgs "chunk type")
    | some ct => .ok (.remove ⟨filepath, ct⟩)
  else .error (.invalidCommand command)

/-- The tag built from the text "RuSt", as in the repository's tests. -/
def rustTag : ChunkType := ⟨[82, 117, 83, 116]⟩

/-- Byte values of the ASCII payload used by the spec's concrete
scenario and the repository's tests. -/
def secretMsg : List Nat :=
  "This is where your secret message will be!".data.map Char.toNat

/-- The chunk of the spec's concrete scenario: tag "RuSt" with the
secret-message payload. -/
def secretChunk : Chunk := ⟨rustTag, secretMsg⟩

/-!  Helper lemmas. -/

theorem beU32_u32BeBytes {n : Nat} (h : n < 2 ^ 32) : beU32 (u32BeBytes n) = n := by
  simp only [beU32, u32BeBytes, List.foldl]
  omega

theorem length_u32BeBytes (n : Nat) : (u32BeBytes n).length = 4 := rfl

theorem crc32Round_lt {c : Nat} (h : c < 2 ^ 32) : crc32Round c < 2 ^ 32 := by
  unfold crc32Round
  split
  · exact Nat.xor_lt_two_pow (by omega) (by norm_num)
  · omega

theorem crc32Rounds_lt {c : Nat} (n : Nat) (h : c < 2 ^ 32) :
    crc32Rounds n c < 2 ^ 32 := by
  induction n generalizing c with
  | zero => exact h
  | succ n ih => exact ih (crc32Round_lt h)

theorem crc32Byte_lt {c : Nat} (b : Nat) (h : c < 2 ^ 32) :
    crc32Byte c b < 2 ^ 32 := by
  unfold crc32Byte
  exact crc32Rounds_lt 8 (Nat.xor_lt_two_pow h (by omega))

theorem crc32_foldl_lt {c : Nat} (l : List Nat) (h : c < 2 ^ 32) :
    l.foldl crc32Byte c < 2 ^ 32 := by
  induction l generalizing c with
  | nil => exact h
  | cons b bs ih => exact ih (crc32Byte_lt b h)

theorem crc32_lt (l : List Nat) : crc32 l < 2 ^ 32 := by
  unfold crc32
  exact Nat.xor_lt_two_pow (crc32_foldl_lt l (by norm_num)) (by norm_num)

theorem utf8Decode_ascii {l : List Nat} (h : ∀ b ∈ l, b < 0x80) :
    utf8Decode l = some l := by
  induction l with
  | nil => rfl
  | cons b bs ih =>
    have hb : b < 0x80 := h b (List.mem_cons_self b bs)
    have hbs : ∀ x ∈ bs, x < 0x80 := fun x hx => h x (List.mem_cons_of_mem b hx)
    rw [utf8Decode.eq_def]
    dsimp only
    rw [if_pos hb, ih hbs]
    rfl

theorem charUtf8_ascii {b : Nat} (h : b < 0x80) : charUtf8 b = [b] := by
  simp [charUtf8, h]

theorem charUtf8Len_ascii {b : Nat} (h : b < 0x80) : charUtf8Len b = 1 := by
  simp [charUtf8Len, h]

theorem utf8Encode_ascii {l : List Nat} (h : ∀ b ∈ l, b < 0x80) :
    utf8Encode l = l := by
  induction l with
  | nil => rfl
  | cons b bs ih =>
    have hb : b < 0x80 := h b (List.mem_cons_self b bs)
    have hbs : ∀ x ∈ bs, x < 0x80 := fun x hx => h x (List.mem_cons_of_mem b hx)
    simp only [utf8Encode, List.map_cons, List.flatten_cons, charUtf8_ascii hb]
    simpa [utf8Encode] using ih hbs

theorem utf8Length_ascii {l : List Nat} (h : ∀ b ∈ l, b < 0x80) :
    utf8Length l = l.length := by
  induction l with
  | nil => rfl
  | cons b bs ih =>
    have hb : b < 0x80 := h b (List.mem_cons_self b bs)
    have hbs : ∀ x ∈ bs, x < 0x80 := fun x hx => h x (List.mem_cons_of_mem b hx)
    simp only [utf8Length, List.map_cons, List.sum_cons, charUtf8Len_ascii hb,
      List.length_cons]
    have := ih hbs
    simp only [utf8Length] at this
    omega

theorem length_charUtf8 (c : Nat) : (charUtf8 c).length = charUtf8Len c := by
  unfold charUtf8 charUtf8Len
  split <;> simp_all <;> (try split) <;> simp_all <;> (try split) <;> simp_all

theorem length_utf8Encode (s : List Nat) : (utf8Encode s).length = utf8Length s := by
  induction s with
  | nil => rfl
  | cons c cs ih =>
    simp only [utf8Encode, utf8Length, List.map_cons, List.flatten_cons,
      List.sum_cons, List.length_append, length_charUtf8] at ih ⊢
    omega

theorem isAsciiAlpha_lt {b : Nat} (h : isAsciiAlpha b = true) : b < 0x80 := by
  simp only [isAsciiAlpha, Bool.or_eq_true, Bool.and_eq_true, decide_eq_true_eq] at h
  omega

theorem isAsciiAlpha_rust {b : Nat} (h : isAsciiAlpha b = true) :
    rustIsAlphabetic b = true := by
  simp only [isAsciiAlpha, Bool.or_eq_true, Bool.and_eq_true, decide_eq_true_eq] at h
  simp only [rustIsAlphabetic, Bool.or_eq_true, Bool.and_eq_true, decide_eq_true_eq,
    beq_iff_eq, bne_iff_ne, ne_eq]
  omega

theorem mem_four {b t0 t1 t2 t3 : Nat} (h : b ∈ [t0, t1, t2, t3]) :
    b = t0 ∨ b = t1 ∨ b = t2 ∨ b = t3 := by
  simp only [List.mem_cons, List.not_mem_nil, or_false] at h
  exact h

theorem from_str_tag {t0 t1 t2 t3 : Nat}
    (h0 : isAsciiAlpha t0 = true) (h1 : isAsciiAlpha t1 = true)
    (h2 : isAsciiAlpha t2 = true) (h3 : isAsciiAlpha t3 = true) :
    ChunkType.from_str [t0, t1, t2, t3] = .ok ⟨[t0, t1, t2, t3]⟩ := by
  have hall : ∀ b ∈ [t0, t1, t2, t3], b < 0x80 := by
    intro b hb
    rcases mem_four hb with h | h | h | h <;> subst h <;>
      [exact isAsciiAlpha_lt h0; exact isAsciiAlpha_lt h1;
       exact isAsciiAlpha_lt h2; exact isAsciiAlpha_lt h3]
  have hlen : utf8Length [t0, t1, t2, t3] = 4 := by
    rw [utf8Length_ascii hall]; rfl
  have halpha : List.all [t0, t1, t2, t3] rustIsAlphabetic = true := by
    simp only [List.all_eq_true]
    intro b hb
    rcases mem_four hb with h | h | h | h <;> subst h <;>
      [exact isAsciiAlpha_rust h0; exact isAsciiAlpha_rust h1;
       exact isAsciiAlpha_rust h2; exact isAsciiAlpha_rust h3]
  unfold ChunkType.from_str
  rw [hlen, halpha, utf8Encode_ascii hall]
  simp

theorem is_valid_tag {t0 t1 t2 t3 : Nat}
    (h0 : isAsciiAlpha t0 = true) (h1 : isAsciiAlpha t1 = true)
    (h2 : isAsciiAlpha t2 = true) (h3 : isAsciiAlpha t3 = true)
    (hu : isAsciiUppercase t2 = true) :
    ChunkType.is_valid ⟨[t0, t1, t2, t3]⟩ = true := by
  have hall : ∀ b ∈ [t0, t1, t2, t3], b < 0x80 := by
    intro b hb
    rcases mem_four hb with h | h | h | h <;> subst h <;>
      [exact isAsciiAlpha_lt h0; exact isAsciiAlpha_lt h1;
       exact isAsciiAlpha_lt h2; exact isAsciiAlpha_lt h3]
  unfold ChunkType.is_valid ChunkType.is_reserved_bit_valid
  simp only [List.getD_cons_succ, List.getD_cons_zero, hu, Bool.not_true,
    Bool.false_eq_true, if_false, utf8Decode_ascii hall, List.all_eq_true,
    decide_eq_true_eq]
  intro b hb
  exact hall b hb

theorem try_from_as_bytes_append (t0 t1 t2 t3 : Nat) (D extra : List Nat)
    (h0 : isAsciiAlpha t0 = true) (h1 : isAsciiAlpha t1 = true)
    (h2 : isAsciiAlpha t2 = true) (h3 : isAsciiAlpha t3 = true)
    (hu : isAsciiUppercase t2 = true) (hL : D.length < 2 ^ 32) :
    Chunk.try_from (Chunk.as_bytes ⟨⟨[t0, t1, t2, t3]⟩, D⟩ ++ extra)
      = .ok ⟨⟨[t0, t1, t2, t3]⟩, D⟩ := by
  have hall : ∀ b ∈ [t0, t1, t2, t3], b < 0x80 := by
    intro b hb
    rcases mem_four hb with h | h | h | h <;> subst h <;>
      [exact isAsciiAlpha_lt h0; exact isAsciiAlpha_lt h1;
       exact isAsciiAlpha_lt h2; exact isAsciiAlpha_lt h3]
  have hC : crc32 ([t0, t1, t2, t3] ++ D) < 2 ^ 32 := crc32_lt _
  have hval : Chunk.as_bytes ⟨⟨[t0, t1, t2, t3]⟩, D⟩ ++ extra =
      u32BeBytes D.length ++ ([t0, t1, t2, t3] ++
        (D ++ (u32BeBytes (crc32 ([t0, t1, t2, t3] ++ D)) ++ extra))) := by
    simp only [Chunk.as_bytes, Chunk.crc, Nat.mod_eq_of_lt hL, List.append_assoc]
  rw [hval]
  set V := u32BeBytes D.length ++ ([t0, t1, t2, t3] ++
      (D ++ (u32BeBytes (crc32 ([t0, t1, t2, t3] ++ D)) ++ extra))) with hV
  have hlenV : V.length = 12 + (D.length + extra.length) := by
    simp only [hV, List.length_append, length_u32BeBytes, List.length_cons,
      List.length_nil]
    omega
  have t4 : V.take 4 = u32BeBytes D.length := List.take_left' (length_u32BeBytes _)
  have d4 : V.drop 4 = [t0, t1, t2, t3] ++
      (D ++ (u32BeBytes (crc32 ([t0, t1, t2, t3] ++ D)) ++ extra)) :=
    List.drop_left' (length_u32BeBytes _)
  have d8 : V.drop 8 = D ++ (u32BeBytes (crc32 ([t0, t1, t2, t3] ++ D)) ++ extra) := by
    have h48 : V.drop 8 = (V.drop 4).drop 4 := by
      rw [List.drop_drop]
    rw [h48, d4]
    exact List.drop_left' rfl
  have tagBytes : (V.drop 4).take 4 = [t0, t1, t2, t3] := by
    rw [d4]
    exact List.take_left' rfl
  have dataBytes : (V.drop 8).take D.length = D := by
    rw [d8]
    exact List.take_left' rfl
  have dcrc : V.drop (8 + D.length) =
      u32BeBytes (crc32 ([t0, t1, t2, t3] ++ D)) ++ extra := by
    have hdd : V.drop (8 + D.length) = (V.drop 8).drop D.length := by
      rw [List.drop_drop]
    rw [hdd, d8]
    exact List.drop_left' rfl
  have crcBytes : (V.drop (8 + D.length)).take 4 =
      u32BeBytes (crc32 ([t0, t1, t2, t3] ++ D)) := by
    rw [dcrc]
    exact List.take_left' (length_u32BeBytes _)
  unfold Chunk.try_from
  rw [if_neg (by omega)]
  rw [tagBytes, utf8Decode_ascii hall]
  try dsimp only
  rw [from_str_tag h0 h1 h2 h3]
  try dsimp only
  rw [is_valid_tag h0 h1 h2 h3 hu]
  try dsimp only
  rw [t4, beU32_u32BeBytes hL]
  rw [if_neg (by simp)]
  rw [if_neg (by omega)]
  rw [if_neg (by omega)]
  rw [dataBytes, crcBytes, beU32_u32BeBytes hC]
  rw [if_neg (by simp [Chunk.crc])]

/-!  Claim theorems. -/

set_option maxRecDepth 200000

/-- C1: the claim says a truncated buffer (declared length too large for
the available bytes) is rejected with a `TruncatedPayload` error, and that
`parse` never panics on any input.  The source has no such bounds check:
on the 12-byte input below with declared length 1, the CRC slice
`value[9 .. 13]` is out of bounds and the program panics; on the second
input the tag bytes are not valid UTF-8 and `str::from_utf8(..).unwrap()`
panics.  This theorem evaluates the model at both failing inputs. -/
theorem try_from_truncated_input_panics :
    Chunk.try_from [0, 0, 0, 1, 82, 117, 83, 116, 0, 0, 0, 0] = .panic ∧
    Chunk.try_from [0, 0, 0, 0, 0xC3, 0x28, 0, 0, 0, 0, 0, 0] = .panic := by
  decide

/-- C2: for every valid tag (four ASCII alphabetic bytes, byte 2
uppercase) and every payload within the 32-bit length bound the spec
imposes, parsing the serialization succeeds and returns the same chunk
(hence the same tag bytes, data and checksum). -/
theorem parse_serialize_roundtrip (t0 t1 t2 t3 : Nat) (D : List Nat)
    (h0 : isAsciiAlpha t0 = true) (h1 : isAsciiAlpha t1 = true)
    (h2 : isAsciiAlpha t2 = true) (h3 : isAsciiAlpha t3 = true)
    (hu : isAsciiUppercase t2 = true) (hL : D.length < 2 ^ 32) :
    Chunk.try_from (Chunk.as_bytes ⟨⟨[t0, t1, t2, t3]⟩, D⟩)
      = .ok ⟨⟨[t0, t1, t2, t3]⟩, D⟩ := by
  have h := try_from_as_bytes_append t0 t1 t2 t3 D [] h0 h1 h2 h3 hu hL
  simpa using h

/-- Witness for C2 at the tag "RuSt" and the payload [1, 2, 3]. -/
theorem parse_serialize_roundtrip_witness :
    Chunk.try_from (Chunk.as_bytes ⟨⟨[82, 117, 83, 116]⟩, [1, 2, 3]⟩)
      = .ok ⟨⟨[82, 117, 83, 116]⟩, [1, 2, 3]⟩ :=
  parse_serialize_roundtrip 82 117 83 116 [1, 2, 3] (by decide) (by decide)
    (by decide) (by decide) (by decide) (by decide)

/-- C3 counterexample: the payload "This is where your secret message
will be!" is 42 bytes, not 44 as the claim states, so `length()` is not
44 and the serialized size is not 56. -/
theorem secret_scenario_not_44 :
    Chunk.length secretChunk ≠ some 44 ∧
    (Chunk.as_bytes secretChunk).length ≠ 56 := by
  decide

/-- C3 amended: for the chunk with tag text "RuSt" and the 42-byte
payload "This is where your secret message will be!", `length()` returns
42, the checksum is 2882656334, the serialization is 12 + 42 = 54 bytes,
and re-parsing it reproduces the same chunk. -/
theorem secret_scenario :
    Chunk.length secretChunk = some 42 ∧
    secretChunk.crc = 2882656334 ∧
    (Chunk.as_bytes secretChunk).length = 12 + 42 ∧
    Chunk.try_from (Chunk.as_bytes secretChunk) = .ok secretChunk := by
  decide

/-- C4 counterexample: the tag bytes "11A1" (digits are not alphabetic)
still satisfy `is_valid`, because the source only checks `s.is_ascii()`
and the reserved bit, so validity is not equivalent to "all four bytes
ASCII alphabetic and byte 2 uppercase". -/
theorem is_valid_accepts_non_alphabetic :
    ChunkType.is_valid ⟨[49, 49, 65, 49]⟩ = true ∧ isAsciiAlpha 49 = false := by
  decide

/-- C4 amended: `is_valid` returns true iff byte 2 is ASCII uppercase and
all four bytes are ASCII (below 0x80) — the alphabetic restriction of the
claim is not checked by the code. -/
theorem is_valid_iff_ascii_and_reserved (b0 b1 b2 b3 : Nat) :
    ChunkType.is_valid ⟨[b0, b1, b2, b3]⟩ = true ↔
      isAsciiUppercase b2 = true ∧ b0 < 128 ∧ b1 < 128 ∧ b2 < 128 ∧ b3 < 128 := by
  unfold ChunkType.is_valid ChunkType.is_reserved_bit_valid
  simp only [List.getD_cons_succ, List.getD_cons_zero]
  cases hu : isAsciiUppercase b2 with
  | false => simp
  | true =>
    simp only [Bool.not_true, Bool.false_eq_true, if_false, true_and]
    cases hdec : utf8Decode [b0, b1, b2, b3] with
    | some s =>
      simp only [List.all_cons, List.all_nil, Bool.and_true, Bool.and_eq_true,
        decide_eq_true_eq]
    | none =>
      constructor
      · intro h
        exact absurd h (by simp)
      · rintro ⟨a0, a1, a2, a3⟩
        have hall : ∀ b ∈ [b0, b1, b2, b3], b < 0x80 := by
          intro b hb
          rcases mem_four hb with h | h | h | h <;> subst h <;> assumption
        rw [utf8Decode_ascii hall] at hdec
        cases hdec

/-- C5: the claim says `data_as_string` returns an `InvalidChunkData`
error when the payload is not valid UTF-8, but the source calls
`String::from_utf8(...).unwrap()`, which panics in that case.  The chunk
below has the valid tag "RuSt" and the single non-UTF-8 payload byte
0xFF: the model panics instead of returning an error. -/
theorem data_as_string_invalid_utf8_panics :
    Chunk.data_as_string ⟨rustTag, [255]⟩ = .panic ∧
    ChunkType.is_valid rustTag = true := by
  decide

/-- C6 counterexample: the two-character string "éé" (scalar 0xE9 twice)
encodes to four UTF-8 bytes, so `from_str` accepts it even though the
string is not exactly 4 characters long, contradicting the claim that
construction fails whenever the input is not exactly 4 characters. -/
theorem from_str_accepts_two_characters :
    ChunkType.from_str [0xE9, 0xE9] = .ok ⟨[0xC3, 0xA9, 0xC3, 0xA9]⟩ ∧
    [0xE9, 0xE9].length ≠ 4 := by
  decide

/-- C6 amended: for strings of code points below 0x100 (where the model
of `char::is_alphabetic` is exact), `from_str` fails (with the
`MalformedTag`-kind errors `wrongSize` or `notLetters`) exactly when the
UTF-8 byte length of the input is not 4 or some character is not
alphabetic; on success it stores the string's 4 UTF-8 bytes. -/
theorem from_str_spec (s : List Nat) (hs : ∀ c ∈ s, c < 0x100) :
    ((ChunkType.from_str s).isOk = false ↔
      utf8Length s ≠ 4 ∨ s.all rustIsAlphabetic = false)
    ∧ (utf8Length s = 4 → s.all rustIsAlphabetic = true →
        ChunkType.from_str s = .ok ⟨utf8Encode s⟩ ∧ (utf8Encode s).length = 4) := by
  unfold ChunkType.from_str
  by_cases hlen : utf8Length s = 4
  · by_cases hal : s.all rustIsAlphabetic = true
    · simp [hlen, hal, Except.isOk, Except.toBool, length_utf8Encode]
    · have hal' : s.all rustIsAlphabetic = false := by
        cases h : s.all rustIsAlphabetic
        · rfl
        · exact absurd h hal
      simp [hlen, hal', Except.isOk, Except.toBool]
  · simp [hlen, Except.isOk, Except.toBool]

/-- Witness for C6's amended theorem at the tag string "RuSt". -/
theorem from_str_spec_witness :
    ChunkType.from_str [82, 117, 83, 116] = .ok ⟨utf8Encode [82, 117, 83, 116]⟩ ∧
    (utf8Encode [82, 117, 83, 116]).length = 4 :=
  (from_str_spec [82, 117, 83, 116] (by decide)).2 (by decide) (by decide)

/-- C7: the claim says an over-32-bit payload is reported as a
`PayloadTooLarge` domain error; instead, on a payload of exactly 2^32
bytes `length()` panics (the failed `try_into().unwrap()`, modelled as
`none`) and `as_bytes` silently truncates the length field to 0 via the
`as u32` cast. -/
theorem length_overflow_panics_and_truncates :
    Chunk.length ⟨rustTag, List.replicate (2 ^ 32) 0⟩ = none ∧
    (Chunk.as_bytes ⟨rustTag, List.replicate (2 ^ 32) 0⟩).take 4 = [0, 0, 0, 0] := by
  constructor
  · unfold Chunk.length
    rw [List.length_replicate]
    rw [if_neg (lt_irrefl _)]
  · unfold Chunk.as_bytes
    rw [List.append_assoc, List.append_assoc]
    rw [List.take_left' (length_u32BeBytes _)]
    rw [List.length_replicate, Nat.mod_self]
    decide

/-- C8: for every chunk whose payload length fits in 32 bits, `as_bytes`
is exactly the concatenation of the big-endian length, the tag bytes, the
payload and the big-endian CRC32 of tag-plus-payload, and its total size
is 12 plus the payload length. -/
theorem as_bytes_layout (t0 t1 t2 t3 : Nat) (D : List Nat)
    (hL : D.length < 2 ^ 32) :
    Chunk.as_bytes ⟨⟨[t0, t1, t2, t3]⟩, D⟩ =
      u32BeBytes D.length ++ [t0, t1, t2, t3] ++ D ++
        u32BeBytes (crc32 ([t0, t1, t2, t3] ++ D)) ∧
    (Chunk.as_bytes ⟨⟨[t0, t1, t2, t3]⟩, D⟩).length = 12 + D.length := by
  constructor
  · show u32BeBytes (D.length % 2 ^ 32) ++ [t0, t1, t2, t3] ++ D ++
        u32BeBytes (crc32 ([t0, t1, t2, t3] ++ D)) = _
    rw [Nat.mod_eq_of_lt hL]
  · show (u32BeBytes (D.length % 2 ^ 32) ++ [t0, t1, t2, t3] ++ D ++
        u32BeBytes (crc32 ([t0, t1, t2, t3] ++ D))).length = 12 + D.length
    simp only [List.length_append, length_u32BeBytes, List.length_cons,
      List.length_nil]
    omega

/-- Witness for C8 at the tag "RuSt" and the payload [1, 2, 3]. -/
theorem as_bytes_layout_witness :
    Chunk.as_bytes ⟨⟨[82, 117, 83, 116]⟩, [1, 2, 3]⟩ =
      u32BeBytes 3 ++ [82, 117, 83, 116] ++ [1, 2, 3] ++
        u32BeBytes (crc32 ([82, 117, 83, 116] ++ [1, 2, 3])) ∧
    (Chunk.as_bytes ⟨⟨[82, 117, 83, 116]⟩, [1, 2, 3]⟩).length = 12 + 3 := by
  have h := as_bytes_layout 82 117 83 116 [1, 2, 3] (by decide)
  simpa using h

/-- C9: `generate_args` returns `Ok` for the commands "encode", "decode"
and "remove" exactly when the required arguments are present (a chunk
type for all three, additionally a payload for "encode"), returns
`MissingArgs` naming the missing argument otherwise — uniformly in the
argument strings, so no content is inspected — and returns
`InvalidCommand` carrying any other command string. -/
theorem generate_args_spec (fp ct pl : String) (opl : Option String) :
    generate_args "encode" fp (some ct) (some pl) = .ok (.encode ⟨fp, ct, pl⟩)
    ∧ generate_args "encode" fp none opl = .error (.missingArgs "chunk type")
    ∧ generate_args "encode" fp (some ct) none = .error (.missingArgs "payload")
    ∧ generate_args "decode" fp (some ct) opl = .ok (.decode ⟨fp, ct⟩)
    ∧ generate_args "decode" fp none opl = .error (.missingArgs "chunk type")
    ∧ generate_args "remove" fp (some ct) opl = .ok (.remove ⟨fp, ct⟩)
    ∧ generate_args "remove" fp none opl = .error (.missingArgs "chunk type")
    ∧ (∀ cmd : String, cmd ≠ "encode" → cmd ≠ "decode" → cmd ≠ "remove" →
        generate_args cmd fp (some ct) opl = .error (.invalidCommand cmd)) := by
  refine ⟨by simp [generate_args], by simp [generate_args],
    by simp [generate_args], by simp [generate_args], by simp [generate_args],
    by simp [generate_args], by simp [generate_args], ?_⟩
  intro cmd hc1 hc2 hc3
  simp [generate_args, hc1, hc2, hc3]

/-- Witness for C9 at the unknown command "foo". -/
theorem generate_args_spec_witness :
    generate_args "foo" "file.png" (some "RuSt") none
      = .error (.invalidCommand "foo") :=
  (generate_args_spec "file.png" "RuSt" "p" none).2.2.2.2.2.2.2 "foo"
    (by decide) (by decide) (by decide)

/-- C10: a well-formed serialized chunk followed by arbitrary trailing
bytes still parses successfully to the same chunk: the parser only reads
the leading 12 + declared-length bytes. -/
theorem parse_ignores_trailing_bytes (t0 t1 t2 t3 : Nat) (D extra : List Nat)
    (h0 : isAsciiAlpha t0 = true) (h1 : isAsciiAlpha t1 = true)
    (h2 : isAsciiAlpha t2 = true) (h3 : isAsciiAlpha t3 = true)
    (hu : isAsciiUppercase t2 = true) (hL : D.length < 2 ^ 32) :
    Chunk.try_from (Chunk.as_bytes ⟨⟨[t0, t1, t2, t3]⟩, D⟩ ++ extra)
      = .ok ⟨⟨[t0, t1, t2, t3]⟩, D⟩ :=
  try_from_as_bytes_append t0 t1 t2 t3 D extra h0 h1 h2 h3 hu hL

/-- Witness for C10 at the tag "RuSt", the payload [1, 2, 3] and the
trailing bytes [7, 7, 7]. -/
theorem parse_ignores_trailing_bytes_witness :
    Chunk.try_from (Chunk.as_bytes ⟨⟨[82, 117, 83, 116]⟩, [1, 2, 3]⟩ ++ [7, 7, 7])
      = .ok ⟨⟨[82, 117, 83, 116]⟩, [1, 2, 3]⟩ :=
  parse_ignores_trailing_bytes 82 117 83 116 [1, 2, 3] [7, 7, 7] (by decide)
    (by decide) (by decide) (by decide) (by decide) (by decide)

end Pngme
